import Mathlib

/-!
Shallow embedding of the market-data ingestion pipeline of the
stock_yuzh repository, together with theorems settling the claims
about its specification.

Conventions of the embedding:
  - Python floats are modelled as rationals; the Python builtin
    round(x, 4) is modelled by round4 below, using the round function of
    Mathlib (the claims settled here never hinge on the tie-breaking
    rule of the rounding mode).
  - Python dictionaries holding one record are modelled as structures
    whose fields keep the dictionary keys where Lean permits; the
    Python keyword clash on the key open is resolved by the suffix
    _price, matching the local variable names of the source.
  - Mutation of a Python object is modelled by explicit state passing:
    a method that mutates the receiver becomes a function from the old
    state to the new state (paired with its observable effect).
  - A raised Python exception that escapes a function is modelled by
    Except.error; an exception swallowed by a try/except block inside
    the function is folded into the returned value.
-/

set_option maxRecDepth 4000

namespace StockYuzh

/-- Rounding to four decimal places: model of the Python builtin round(x, 4)
as used throughout data_transformer.py. -/
def round4 (x : ℚ) : ℚ := (round (x * 10000) : ℤ) / 10000

/-- Truncation of a rational toward zero: model of the Python builtin int()
applied to a float. -/
def truncQ (q : ℚ) : ℤ := Int.sign q.num * ((q.num.natAbs : ℤ) / (q.den : ℤ))

/-! ### DataTransformer.calculate_change_rate (data_transformer.py)

Source: calculate_change_rate_with_details first returns None when close or
preclose is falsy (zero); otherwise it computes the raw percentage change,
rounds it to four decimals, and clamps values whose absolute rounded value
reaches 10000 to plus or minus 9999.9999, flagging the truncation.
-/

/-- Result dictionary of calculate_change_rate_with_details.  The purely
presentational field calculation (an f-string) is not modelled. -/
structure ChangeRateDetails where
  change_rate : ℚ
  raw_change_rate : ℚ
  is_truncated : Bool
  truncated_value : Option ℚ
  close_price : ℚ
  preclose_price : ℚ
  deriving Repr, DecidableEq

/-- The storage ceiling 9999.9999 of the change-rate column. -/
def changeRateCap : ℚ := 99999999 / 10000

/-- Model of DataTransformer.calculate_change_rate_with_details.  The guard
models the Python test (not close or not preclose or preclose == 0), which
for float arguments is exactly the test close = 0 or preclose = 0. -/
def calculate_change_rate_with_details (close preclose : ℚ) :
    Option ChangeRateDetails :=
  if close = 0 ∨ preclose = 0 then none
  else if 10000 ≤ |round4 ((close - preclose) / preclose * 100)| then
    some { change_rate :=
             if 0 < round4 ((close - preclose) / preclose * 100) then
               changeRateCap
             else -changeRateCap
           raw_change_rate := round4 ((close - preclose) / preclose * 100)
           is_truncated := true
           truncated_value :=
             some (if 0 < round4 ((close - preclose) / preclose * 100) then
                     changeRateCap
                   else -changeRateCap)
           close_price := close
           preclose_price := preclose }
  else
    some { change_rate := round4 ((close - preclose) / preclose * 100)
           raw_change_rate := round4 ((close - preclose) / preclose * 100)
           is_truncated := false
           truncated_value := none
           close_price := close
           preclose_price := preclose }

/-- Model of DataTransformer.calculate_change_rate. -/
def calculate_change_rate (close preclose : ℚ) : Option ℚ :=
  (calculate_change_rate_with_details close preclose).map (·.change_rate)

/-! ### ApiRateLimiter (api_rate_limiter.py)

The limiter object is modelled by its mutable state; the method
wait_if_needed maps a state to the successor state paired with the flag
saying whether this call sleeps (for sleep_duration seconds).
-/

/-- Mutable state of an ApiRateLimiter instance.  When unlimited is true the
field calls_per_period is irrelevant (the source stores float inf there). -/
structure ApiRateLimiter where
  unlimited : Bool
  calls_per_period : ℕ
  sleep_duration : ℚ
  enabled : Bool
  call_count : ℕ
  deriving Repr, DecidableEq

/-- Model of ApiRateLimiter.__init__: ValueError on a negative sleep
duration is modelled as none; calls_per_period at most zero switches the
limiter to the unlimited mode. -/
def ApiRateLimiter.init (calls_per_period : ℤ) (sleep_duration : ℚ)
    (enabled : Bool) : Option ApiRateLimiter :=
  if sleep_duration < 0 then none
  else if calls_per_period ≤ 0 then
    some { unlimited := true, calls_per_period := 0,
           sleep_duration := sleep_duration, enabled := enabled,
           call_count := 0 }
  else
    some { unlimited := false, calls_per_period := calls_per_period.toNat,
           sleep_duration := sleep_duration, enabled := enabled,
           call_count := 0 }

/-- Model of ApiRateLimiter.wait_if_needed: the new state together with the
flag saying whether the call sleeps.  The increment, the threshold test and
the reset happen under the lock; the sleep itself happens outside it. -/
def ApiRateLimiter.wait_if_needed (s : ApiRateLimiter) : ApiRateLimiter × Bool :=
  if ¬ s.enabled then (s, false)
  else if s.unlimited then (s, false)
  else
    let c := s.call_count + 1
    if c ≥ s.calls_per_period then ({ s with call_count := 0 }, true)
    else ({ s with call_count := c }, false)

/-- State of the limiter after n calls of wait_if_needed. -/
def ApiRateLimiter.iterCalls (s : ApiRateLimiter) : ℕ → ApiRateLimiter
  | 0 => s
  | n + 1 => (ApiRateLimiter.iterCalls s n).wait_if_needed.1

/-- Whether the k-th call of wait_if_needed (counting from 1) sleeps, when
issued against the state s. -/
def ApiRateLimiter.sleepsOnCall (s : ApiRateLimiter) (k : ℕ) : Bool :=
  (ApiRateLimiter.iterCalls s (k - 1)).wait_if_needed.2

/-! ### Binary bar decoder (data_transformer.py)

The SECURITY_TYPE_COEFFICIENTS table of the source stores one regular
expression per security type.  Every pattern of the table is an alternation
of sequences of literal characters and single-character ranges, so the
patterns are embedded as data: an alternative is a list of atoms, each
matching one character, and re.match semantics (match at the start of the
string, a longer string is accepted) is prefix matching.
-/

/-- One single-character matcher of a pattern: a literal or a range. -/
inductive PatAtom where
  | lit : Char → PatAtom
  | range : Char → Char → PatAtom
  deriving Repr, DecidableEq

/-- Whether one atom matches one character. -/
def atomMatches : PatAtom → Char → Bool
  | .lit l, c => c = l
  | .range lo hi, c => lo ≤ c ∧ c ≤ hi

/-- Prefix matching of a sequence of atoms against a character list. -/
def matchAtoms : List PatAtom → List Char → Bool
  | [], _ => true
  | _ :: _, [] => false
  | a :: as, c :: cs => atomMatches a c && matchAtoms as cs

/-- Model of re.match over an alternation of atom sequences. -/
def reMatch (alts : List (List PatAtom)) (code : String) : Bool :=
  alts.any (fun alt => matchAtoms alt code.data)

/-- Atoms matching the given literal string. -/
def litS (s : String) : List PatAtom := s.data.map PatAtom.lit

/-- Atoms matching n decimal digits, the character class 0 to 9 repeated. -/
def dig (n : ℕ) : List PatAtom := List.replicate n (PatAtom.range '0' '9')

/-- One entry of the SECURITY_TYPE_COEFFICIENTS table; market is the lower
case market tag carried by the prefix of the entry name in the source. -/
structure SecurityTypeEntry where
  name : String
  market : String
  price_coeff : ℚ
  volume_coeff : ℚ
  pattern : List (List PatAtom)

/-- The SECURITY_TYPE_COEFFICIENTS table of DataTransformer, in the
insertion order of the source dictionary. -/
def SECURITY_TYPE_COEFFICIENTS : List SecurityTypeEntry :=
  [ { name := "SZ_A_STOCK", market := "sz", price_coeff := 1/100,
      volume_coeff := 1/100,
      pattern := [litS "00" ++ dig 4, litS "30" ++ dig 3] },
    { name := "SZ_B_STOCK", market := "sz", price_coeff := 1/100,
      volume_coeff := 1/100, pattern := [litS "20" ++ dig 3] },
    { name := "SZ_INDEX", market := "sz", price_coeff := 1/100,
      volume_coeff := 1, pattern := [litS "39" ++ dig 3] },
    { name := "SZ_FUND", market := "sz", price_coeff := 1/1000,
      volume_coeff := 1/100,
      pattern := [litS "1" ++ [PatAtom.range '5' '6'] ++ dig 3] },
    { name := "SZ_BOND", market := "sz", price_coeff := 1/1000,
      volume_coeff := 1/100,
      pattern := [litS "1" ++ [PatAtom.range '0' '4'] ++ dig 3,
                  litS "10" ++ dig 3,
                  litS "1" ++ [PatAtom.range '1' '9'] ++ dig 3,
                  litS "20" ++ dig 3] },
    { name := "SH_A_STOCK", market := "sh", price_coeff := 1/100,
      volume_coeff := 1/100,
      pattern := [litS "6" ++ dig 5, litS "68" ++ dig 4] },
    { name := "SH_B_STOCK", market := "sh", price_coeff := 1/1000,
      volume_coeff := 1/100, pattern := [litS "9" ++ dig 5] },
    { name := "SH_INDEX", market := "sh", price_coeff := 1/100,
      volume_coeff := 1,
      pattern := [litS "00" ++ dig 3, litS "88" ++ dig 3,
                  litS "99" ++ dig 3] },
    { name := "SH_FUND", market := "sh", price_coeff := 1/1000,
      volume_coeff := 1,
      pattern := [litS "5" ++ [PatAtom.range '0' '1'] ++ dig 3] },
    { name := "SH_BOND", market := "sh", price_coeff := 1/1000,
      volume_coeff := 1,
      pattern := [litS "01" ++ dig 3, litS "1" ++ dig 1 ++ dig 3,
                  litS "2" ++ dig 1 ++ dig 3] },
    { name := "BJ_A_STOCK", market := "bj", price_coeff := 1/100,
      volume_coeff := 1/100,
      pattern := [litS "8" ++ [PatAtom.range '3' '4'] ++ dig 4,
                  litS "87" ++ dig 4] },
    { name := "BJ_INDEX", market := "bj", price_coeff := 1/100,
      volume_coeff := 1,
      pattern := [litS "80" ++ dig 3, litS "89" ++ dig 3] } ]

/-- Model of DataTransformer.get_security_type: the first table entry whose
pattern matches the code and whose market tag equals the market wins; the
default is the A-stock type of the market. -/
def get_security_type (code market : String) : String :=
  match SECURITY_TYPE_COEFFICIENTS.find?
      (fun e => reMatch e.pattern code && e.market == market) with
  | some e => e.name
  | none =>
    if market == "sz" then "SZ_A_STOCK"
    else if market == "bj" then "BJ_A_STOCK"
    else "SH_A_STOCK"

/-- Coefficient pair (price_coeff, volume_coeff) of a security type; the
fallback is unreachable because get_security_type only returns table
names. -/
def coeffFor (sec_type : String) : ℚ × ℚ :=
  match SECURITY_TYPE_COEFFICIENTS.find? (fun e => e.name == sec_type) with
  | some e => (e.price_coeff, e.volume_coeff)
  | none => (1, 1)

/-- Unsigned 32-bit value of four little-endian bytes. -/
def u32OfLEBytes (b0 b1 b2 b3 : ℕ) : ℕ :=
  b0 + 256 * b1 + 65536 * b2 + 16777216 * b3

/-- Signed 32-bit value of four little-endian bytes, the format character i
of struct.unpack. -/
def i32OfLEBytes (b0 b1 b2 b3 : ℕ) : ℤ :=
  let u := u32OfLEBytes b0 b1 b2 b3
  if u < 2147483648 then (u : ℤ) else (u : ℤ) - 4294967296

/-- IEEE-754 single-precision value of four little-endian bytes, the format
character f of struct.unpack; none marks a non-finite value (infinity or
NaN), which Python carries along as a float until an int conversion
raises. -/
def f32OfLEBytes (b0 b1 b2 b3 : ℕ) : Option ℚ :=
  let u := u32OfLEBytes b0 b1 b2 b3
  let sgn := u / 2147483648
  let e := (u / 8388608) % 256
  let frac := u % 8388608
  if e = 255 then none
  else
    let mag : ℚ :=
      if e = 0 then (frac : ℚ) * (2 : ℚ) ^ (-149 : ℤ)
      else ((8388608 + frac : ℕ) : ℚ) * (2 : ℚ) ^ ((e : ℤ) - 150)
    some (if sgn = 1 then -mag else mag)

/-- Calendar date, the model of a Python datetime.date value. -/
structure TradeDate where
  year : ℕ
  month : ℕ
  day : ℕ
  deriving Repr, DecidableEq

/-- Clock time, the model of a Python datetime.time value. -/
structure TimeHMS where
  hour : ℕ
  minute : ℕ
  second : ℕ
  deriving Repr, DecidableEq

/-- Gregorian leap-year rule. -/
def isLeapYear (y : ℕ) : Bool :=
  (y % 4 == 0 && y % 100 != 0) || y % 400 == 0

/-- Number of days of a month in the proleptic Gregorian calendar. -/
def daysInMonth (y m : ℕ) : ℕ :=
  if m = 2 then (if isLeapYear y then 29 else 28)
  else if m = 4 ∨ m = 6 ∨ m = 9 ∨ m = 11 then 30
  else 31

/-- Model of the datetime.date constructor: some date when the arguments
form a valid calendar date, none when the constructor would raise. -/
def mkDate (y m d : ℕ) : Option TradeDate :=
  if 1 ≤ y ∧ y ≤ 9999 ∧ 1 ≤ m ∧ m ≤ 12 ∧ 1 ≤ d ∧ d ≤ daysInMonth y m then
    some ⟨y, m, d⟩
  else none

/-- Model of datetime.strptime(str(n), the year-month-day format) as used by
parse_day_file_data, restricted to canonical eight-digit date integers; any
other value is treated as the parse failure that raises ValueError. -/
def strptimeYMD8 (n : ℤ) : Option TradeDate :=
  if n < 10000000 ∨ 99991231 < n then none
  else
    let m := n.toNat
    mkDate (m / 10000) (m / 100 % 100) (m % 100)

/-- Number of decimal digits of a positive natural number, the model of the
length of str(n). -/
def numDigits (n : ℕ) : ℕ := Nat.log 10 n + 1

/-- Civil date and clock time of a Unix epoch second count, the model of
datetime.fromtimestamp taken at UTC (the source uses the local zone of the
host; the choice of zone affects no claim settled here).  The conversion is
the standard days-from-civil inverse on the proleptic Gregorian
calendar. -/
def epochToDateTime (t : ℤ) : TradeDate × TimeHMS :=
  let days := t.ediv 86400
  let secs := (t.emod 86400).toNat
  let z := days + 719468
  let era := z.ediv 146097
  let doe := (z - era * 146097).toNat
  let yoe := (doe - doe / 1460 + doe / 36524 - doe / 146096) / 365
  let doy := doe - (365 * yoe + yoe / 4 - yoe / 100)
  let mp := (5 * doy + 2) / 153
  let d := doy - (153 * mp + 2) / 5 + 1
  let m := if mp < 10 then mp + 3 else mp - 9
  let y : ℤ := (yoe : ℤ) + era * 400 + (if m ≤ 2 then 1 else 0)
  (⟨y.toNat, m, d⟩, ⟨secs / 3600, secs % 3600 / 60, secs % 60⟩)

/-- Failure of a decode step that raises in the source: a struct.error for
a buffer of the wrong size, a ValueError for an unparseable date. -/
inductive DecodeErr where
  | structError
  | valueError
  deriving Repr, DecidableEq

/-- Record returned by parse_day_file_data. -/
structure DayParsed where
  trade_date : TradeDate
  open_price : ℚ
  high : ℚ
  low : ℚ
  close : ℚ
  preclose : Option ℚ
  amount : ℚ
  volume : ℤ
  deriving Repr, DecidableEq

/-- Model of DataTransformer.parse_day_file_data.  The source carries no
try/except block, so both failure classes are raised to the caller and the
model returns Except.error for them: a buffer whose length differs from the
32 bytes demanded by the format string, and a first field that fails the
strptime date parse. -/
def parse_day_file_data (raw_data : List ℕ) (code market : String) :
    Except DecodeErr DayParsed :=
  let coeff := coeffFor (get_security_type code market)
  if raw_data.length ≠ 32 then .error .structError
  else
    let b := fun i => raw_data.getD i 0
    let v := fun i => i32OfLEBytes (b (4*i)) (b (4*i+1)) (b (4*i+2)) (b (4*i+3))
    match strptimeYMD8 (v 0) with
    | none => .error .valueError
    | some d =>
      .ok { trade_date := d
            open_price := round4 ((v 1 : ℚ) * coeff.1)
            high := round4 ((v 2 : ℚ) * coeff.1)
            low := round4 ((v 3 : ℚ) * coeff.1)
            close := round4 ((v 4 : ℚ) * coeff.1)
            preclose := none
            amount := round4 ((v 5 : ℚ))
            volume := truncQ ((v 6 : ℚ) * coeff.2) }

/-- Record returned by parse_minute_file_data; a none price or amount marks
a non-finite float that the source would carry in the dictionary. -/
structure MinuteParsed where
  trade_date : TradeDate
  trade_time : TimeHMS
  open_price : Option ℚ
  high : Option ℚ
  low : Option ℚ
  close : Option ℚ
  amount : Option ℚ
  volume : ℤ
  deriving Repr, DecidableEq

/-- Model of DataTransformer.parse_minute_file_data.  The whole body of the
source sits inside a try/except block returning None, so every failure
(wrong buffer length, int conversion of a non-finite volume, an invalid
calendar date raised by the date constructor) folds into none, as does the
explicit rejection of unparseable timestamps.  Clock times are truthy in
the modern Python this code targets, so the final truthiness test of the
source reduces to the two branches modelled here. -/
def parse_minute_file_data (raw_data : List ℕ) (code market : String) :
    Option MinuteParsed :=
  let coeff := coeffFor (get_security_type code market)
  if raw_data.length ≠ 28 then none
  else
    let b := fun i => raw_data.getD i 0
    let ts := i32OfLEBytes (b 0) (b 1) (b 2) (b 3)
    let f := fun i => f32OfLEBytes (b (4*i)) (b (4*i+1)) (b (4*i+2)) (b (4*i+3))
    match (f 6).map (· * coeff.2) with
    | none => none
    | some v6 =>
      let volume := truncQ v6
      if ts ≤ 0 then none
      else
        let tsN := ts.toNat
        let nd := numDigits tsN
        let dt? : Option (TradeDate × TimeHMS) :=
          if nd = 12 then
            let y := tsN / 100000000
            let mo := tsN / 1000000 % 100
            let dy := tsN / 10000 % 100
            let h := tsN / 100 % 100
            let mi := tsN % 100
            if 1900 ≤ y ∧ y ≤ 2100 ∧ 1 ≤ mo ∧ mo ≤ 12 ∧ 1 ≤ dy ∧ dy ≤ 31 ∧
                h ≤ 23 ∧ mi ≤ 59 then
              (mkDate y mo dy).map (fun dd => (dd, ⟨h, mi, 0⟩))
            else none
          else if nd = 8 then
            let y := tsN / 10000
            let mo := tsN / 100 % 100
            let dy := tsN % 100
            if 1900 ≤ y ∧ y ≤ 2100 ∧ 1 ≤ mo ∧ mo ≤ 12 ∧ 1 ≤ dy ∧ dy ≤ 31 then
              (mkDate y mo dy).map (fun dd => (dd, ⟨9, 30, 0⟩))
            else none
          else if nd = 10 then some (epochToDateTime ts)
          else none
        match dt? with
        | none => none
        | some (d, tm) =>
          if 1990 ≤ d.year ∧ d.year ≤ 2100 then
            some { trade_date := d
                   trade_time := tm
                   open_price := (f 1).map (fun x => round4 (x * coeff.1))
                   high := (f 2).map (fun x => round4 (x * coeff.1))
                   low := (f 3).map (fun x => round4 (x * coeff.1))
                   close := (f 4).map (fun x => round4 (x * coeff.1))
                   amount := (f 5).map (fun x => round4 x)
                   volume := volume }
          else none

/-! ### Derived-field reconciler (pytdx_source.py and sync_manager.py)

Records of the daily pipeline are dictionaries; the fields touched by the
reconciler are modelled here.  In the pytdx path the trade_date key holds an
eight-digit date string, whose lexicographic order coincides with the
numeric order of the corresponding natural number, so the model stores the
number.
-/

/-- Daily bar record of the pipeline, restricted to the fields read or
written by the reconciler and the deduplication step. -/
structure DailyRec where
  ts_code : String
  trade_date : ℕ
  open_price : ℚ
  high : ℚ
  low : ℚ
  close : ℚ
  preclose : Option ℚ
  volume : ℤ
  amount : ℚ
  change_rate : Option ℚ
  turnover_rate : Option ℚ
  deriving Repr, DecidableEq

/-- Stable insertion of a record into a list already considered sorted,
keeping earlier records first on equal dates. -/
def insertByDate (r : DailyRec) : List DailyRec → List DailyRec
  | [] => [r]
  | x :: xs =>
    if r.trade_date ≤ x.trade_date then r :: x :: xs
    else x :: insertByDate r xs

/-- Model of the Python call daily_data.sort with the trade_date key: a
stable ascending sort, realised as an insertion sort, which computes the
same list as any stable ascending sort. -/
def sortByDate (l : List DailyRec) : List DailyRec :=
  l.foldr insertByDate []

/-- Body of the index loop of _post_process_daily_data for the positions
after the first: every record receives the close of its predecessor as
preclose, and, when both that preclose and its own close are truthy
(nonzero), its change_rate is recomputed.  The first argument carries the
close of the predecessor. -/
def assignFrom (prevClose : ℚ) : List DailyRec → List DailyRec
  | [] => []
  | r :: rest =>
    let r2 :=
      if prevClose ≠ 0 ∧ r.close ≠ 0 then
        { r with preclose := some prevClose
                 change_rate := calculate_change_rate r.close prevClose }
      else { r with preclose := some prevClose }
    r2 :: assignFrom r.close rest

/-- The index loop of _post_process_daily_data of pytdx_source.py applied
to the sorted list: the first record receives its own open as preclose and
keeps its change_rate; the later records are handled by assignFrom. -/
def assignPreclose : List DailyRec → List DailyRec
  | [] => []
  | r :: rest => { r with preclose := some r.open_price } :: assignFrom r.close rest

/-- Model of PytdxSource._post_process_daily_data: a collection of at most
one record is returned unchanged; otherwise the collection is sorted
ascending by trade_date and the preclose and change_rate fields are
assigned in place. -/
def post_process_daily_data (daily_data : List DailyRec) : List DailyRec :=
  if daily_data.length ≤ 1 then daily_data
  else assignPreclose (sortByDate daily_data)

/-- Placeholder record used as the default of positional list access in
statements; the hypotheses of those statements keep every access within
bounds. -/
def dummyDailyRec : DailyRec :=
  { ts_code := "", trade_date := 0, open_price := 0, high := 0, low := 0,
    close := 0, preclose := none, volume := 0, amount := 0,
    change_rate := none, turnover_rate := none }

/-- Deduplication key of the daily pipeline. -/
def dailyKey (r : DailyRec) : String × ℕ := (r.ts_code, r.trade_date)

/-- Model of pandas drop_duplicates over the columns ts_code and trade_date
with keep set to last: a record survives exactly when no later record of
the list shares its key, and the surviving records keep their relative
order. -/
def dropDuplicatesKeepLast : List DailyRec → List DailyRec
  | [] => []
  | r :: rest =>
    if rest.any (fun s => dailyKey s = dailyKey r) then
      dropDuplicatesKeepLast rest
    else r :: dropDuplicatesKeepLast rest

/-- Model of SyncManager._assemble_daily_data_with_fundamentals: every
record is copied with a null turnover_rate, then the batch is deduplicated
on (ts_code, trade_date) keeping the last occurrence. -/
def assemble_daily_data_with_fundamentals (daily_data : List DailyRec) :
    List DailyRec :=
  dropDuplicatesKeepLast
    (daily_data.map (fun r => { r with turnover_rate := none }))

/-! ### Collection results and statistics (collection_result.py,
thread_safe_statistics.py) -/

/-- The CollectionStatus enumeration. -/
inductive CollectionStatus where
  | success
  | noData
  | error
  deriving Repr, DecidableEq

/-- One CollectionResult, restricted to the fields the statistics read. -/
structure CollectionResult where
  status : CollectionStatus
  error_message : Option String
  execution_time : Option ℚ
  deriving Repr, DecidableEq

/-- Python truthiness of the optional execution_time float. -/
def truthyTime : Option ℚ → Bool
  | none => false
  | some t => t ≠ 0

/-- Counter state of a CollectionStatistics instance. -/
structure CollectionStatistics where
  total : ℕ
  success_count : ℕ
  no_data_count : ℕ
  error_count : ℕ
  total_execution_time : ℚ
  deriving Repr, DecidableEq

/-- The freshly constructed CollectionStatistics. -/
def CollectionStatistics.init : CollectionStatistics :=
  { total := 0, success_count := 0, no_data_count := 0, error_count := 0,
    total_execution_time := 0 }

/-- Model of CollectionStatistics.add_result: the total always grows, a
truthy execution time is accumulated, and the status selects exactly one of
the three outcome counters (the else branch of the source catches the error
status). -/
def CollectionStatistics.add_result (s : CollectionStatistics)
    (r : CollectionResult) : CollectionStatistics :=
  let s :=
    { s with total := s.total + 1
             total_execution_time :=
               s.total_execution_time +
                 (if truthyTime r.execution_time then r.execution_time.getD 0
                  else 0) }
  match r.status with
  | .success => { s with success_count := s.success_count + 1 }
  | .noData => { s with no_data_count := s.no_data_count + 1 }
  | .error => { s with error_count := s.error_count + 1 }

/-- Model of the completion_rate property. -/
def CollectionStatistics.completion_rate (s : CollectionStatistics) : ℚ :=
  if s.total = 0 then 0
  else ((s.success_count : ℚ) + (s.no_data_count : ℚ)) / (s.total : ℚ)

/-- Model of the real_success_rate property, the success rate of the
spec. -/
def CollectionStatistics.real_success_rate (s : CollectionStatistics) : ℚ :=
  if s.total = 0 then 0 else (s.success_count : ℚ) / (s.total : ℚ)

/-- Model of the error_rate property. -/
def CollectionStatistics.error_rate (s : CollectionStatistics) : ℚ :=
  if s.total = 0 then 0 else (s.error_count : ℚ) / (s.total : ℚ)

/-- Statistics reached from the fresh instance by a sequence of
add_result calls. -/
def CollectionStatistics.ofResults (rs : List CollectionResult) :
    CollectionStatistics :=
  rs.foldl CollectionStatistics.add_result CollectionStatistics.init

/-- Counter state of a ThreadSafeStatistics instance, restricted to the
fields touched by add_result and get_progress_info. -/
structure ThreadSafeStatistics where
  total_stocks : ℕ
  successful : ℕ
  failed : ℕ
  no_data : ℕ
  error_count : ℕ
  timing_baostock_total : ℚ
  timing_baostock_calls : ℕ
  collection_stats : CollectionStatistics
  deriving Repr, DecidableEq

/-- The freshly constructed ThreadSafeStatistics. -/
def ThreadSafeStatistics.init : ThreadSafeStatistics :=
  { total_stocks := 0, successful := 0, failed := 0, no_data := 0,
    error_count := 0, timing_baostock_total := 0, timing_baostock_calls := 0,
    collection_stats := CollectionStatistics.init }

/-- Model of ThreadSafeStatistics.add_result: the stock total always grows,
but the three outcome counters (and the timing accumulators) move only when
the execution time of the result is truthy; the nested CollectionStatistics
is always updated. -/
def ThreadSafeStatistics.add_result (s : ThreadSafeStatistics)
    (r : CollectionResult) : ThreadSafeStatistics :=
  let s := { s with total_stocks := s.total_stocks + 1 }
  let s :=
    if truthyTime r.execution_time then
      let t := r.execution_time.getD 0
      match r.status with
      | .success =>
        { s with successful := s.successful + 1
                 timing_baostock_total := s.timing_baostock_total + t
                 timing_baostock_calls := s.timing_baostock_calls + 1 }
      | .noData =>
        { s with no_data := s.no_data + 1
                 timing_baostock_total := s.timing_baostock_total + t
                 timing_baostock_calls := s.timing_baostock_calls + 1 }
      | .error =>
        { s with error_count := s.error_count + 1
                 failed := s.failed + 1
                 timing_baostock_total := s.timing_baostock_total + t
                 timing_baostock_calls := s.timing_baostock_calls + 1 }
    else s
  { s with collection_stats := s.collection_stats.add_result r }

/-- Model of ThreadSafeStatistics.get_progress_info: processed count, stock
total, and completion percentage. -/
def ThreadSafeStatistics.get_progress_info (s : ThreadSafeStatistics) :
    ℕ × ℕ × ℚ :=
  let current := s.successful + s.no_data + s.error_count
  (current, s.total_stocks,
    if 0 < s.total_stocks then (current : ℚ) / (s.total_stocks : ℚ) * 100
    else 0)

/-- Statistics reached from the fresh instance by a sequence of
add_result calls. -/
def ThreadSafeStatistics.ofResults (rs : List CollectionResult) :
    ThreadSafeStatistics :=
  rs.foldl ThreadSafeStatistics.add_result ThreadSafeStatistics.init

/-! ### Concurrent fetch of fundamentals (thread_safe_baostock.py,
concurrent_fundamentals_manager.py)

The remote baostock call is modelled by the response it hands back: rows on
a clean call, a protocol-level failure code, or a raised exception.  The
numeric content of a row is irrelevant to the claims, so a row is modelled
by its two optional share fields (an empty string field is falsy and maps
to none).
-/

/-- One row of the remote profit query. -/
structure FinRow where
  totalShare : Option ℚ
  floatShare : Option ℚ
  deriving Repr, DecidableEq

/-- Observable behaviour of one remote query_profit_data call. -/
inductive RemoteResp where
  | ok : List FinRow → RemoteResp
  | protocolError : String → RemoteResp
  | raised : String → RemoteResp
  deriving Repr, DecidableEq

/-- Financial data dictionary built by get_financial_data. -/
structure FinancialData where
  total_share : Option ℚ
  float_share : Option ℚ
  deriving Repr, DecidableEq

/-- Model of ThreadSafeBaostockSource.get_financial_data for one remote
response: a raised exception is caught by the except block of the source
and becomes None, a protocol-level failure code becomes None, an empty
result set becomes None, and the first row otherwise becomes the data. -/
def get_financial_data : RemoteResp → Option FinancialData
  | .raised _ => none
  | .protocolError _ => none
  | .ok [] => none
  | .ok (row :: _) =>
    some { total_share := row.totalShare, float_share := row.floatShare }

/-- Model of ThreadSafeBaostockSource.get_stock_fundamentals on the
orchestrator path (no year and quarter given): the primary prior period is
queried, and exactly one fallback period is queried only when the primary
query produced nothing.  The two arguments are the responses of the remote
API for the two periods of the query sequence. -/
def get_stock_fundamentals (primary fallback : RemoteResp) :
    Option FinancialData :=
  match get_financial_data primary with
  | some d => some d
  | none => get_financial_data fallback

/-- Model of the classification performed by
ConcurrentFundamentalsManager._collect_fundamentals_concurrent: a truthy
fundamentals dictionary yields the success result, a falsy one yields the
no-data result.  The error branch of the source fires only when
get_stock_fundamentals itself raises, which the model shows it never
does. -/
def collect_fundamentals_classify (primary fallback : RemoteResp) :
    CollectionStatus :=
  match get_stock_fundamentals primary fallback with
  | some _ => .success
  | none => .noData

/-! ### Anomaly detection gate (daily_kline_anomaly_detector.py)

The gate reads the daily record dictionary; the fields it touches are
modelled in KlineData.  An AnomalyRecord keeps the identifying fields and
the classification; the purely presentational description, actual_value and
expected_range strings of the source are not modelled.
-/

/-- Daily record as read by the anomaly detector. -/
structure KlineData where
  ts_code : String
  trade_date : ℕ
  open_price : ℚ
  high : ℚ
  low : ℚ
  close : ℚ
  volume : ℤ
  amount : ℚ
  preclose : Option ℚ
  change_rate : Option ℚ
  is_st : Bool
  deriving Repr, DecidableEq

/-- Severity of an anomaly record. -/
inductive Severity where
  | error
  | warning
  deriving Repr, DecidableEq

/-- The anomaly_type strings of the source, as a closed enumeration. -/
inductive AnomalyType where
  | price_invalid
  | price_out_of_range
  | volume_invalid
  | volume_excessive
  | amount_invalid
  | price_logic_error
  | open_price_logic_error
  | close_price_logic_error
  | change_rate_excessive
  | change_rate_calculation_error
  | change_rate_precision_overflow
  deriving Repr, DecidableEq

/-- One anomaly record emitted by the gate. -/
structure AnomalyRecord where
  ts_code : String
  trade_date : ℕ
  anomaly_type : AnomalyType
  field_name : String
  severity : Severity
  deriving Repr, DecidableEq

/-- Detection configuration, with the default values of the source. -/
structure DetectionConfig where
  enabled : Bool
  price_min : ℚ
  price_max : ℚ
  volume_limit : ℚ
  amount_limit : ℚ
  max_change_rate : ℚ
  st_max_change_rate : ℚ
  deriving Repr, DecidableEq

/-- The default detection configuration of _load_detection_config (the ST
ceiling is the fallback value 6 of the st_stock_config lookup). -/
def defaultDetectionConfig : DetectionConfig :=
  { enabled := true, price_min := 1/100, price_max := 10000,
    volume_limit := 1000000000000, amount_limit := 1000000000000000,
    max_change_rate := 20, st_max_change_rate := 6 }

/-- Check of one price field inside _detect_price_anomalies: nonpositive is
an error, a value outside the configured range is a warning. -/
def priceFieldCheck (cfg : DetectionConfig) (d : KlineData) (fname : String)
    (p : ℚ) : List AnomalyRecord :=
  if p ≤ 0 then
    [⟨d.ts_code, d.trade_date, .price_invalid, fname, .error⟩]
  else if p < cfg.price_min ∨ p > cfg.price_max then
    [⟨d.ts_code, d.trade_date, .price_out_of_range, fname, .warning⟩]
  else []

/-- Model of _detect_price_anomalies over the four price fields. -/
def detect_price_anomalies (cfg : DetectionConfig) (d : KlineData) :
    List AnomalyRecord :=
  priceFieldCheck cfg d "open" d.open_price ++
  priceFieldCheck cfg d "high" d.high ++
  priceFieldCheck cfg d "low" d.low ++
  priceFieldCheck cfg d "close" d.close

/-- Model of _detect_volume_anomalies. -/
def detect_volume_anomalies (cfg : DetectionConfig) (d : KlineData) :
    List AnomalyRecord :=
  (if d.volume < 0 then
    [⟨d.ts_code, d.trade_date, .volume_invalid, "volume", .error⟩]
   else []) ++
  (if (d.volume : ℚ) > cfg.volume_limit then
    [⟨d.ts_code, d.trade_date, .volume_excessive, "volume", .warning⟩]
   else []) ++
  (if d.amount < 0 then
    [⟨d.ts_code, d.trade_date, .amount_invalid, "amount", .error⟩]
   else [])

/-- Model of _detect_price_logic_anomalies.  The guards reproduce the
truthiness tests of the source: the high-low comparison runs only for
positive high and low, and the two range checks run only when the three
prices they read are all nonzero. -/
def detect_price_logic_anomalies (cfg : DetectionConfig) (d : KlineData) :
    List AnomalyRecord :=
  (if d.high > 0 ∧ d.low > 0 ∧ d.high < d.low then
    [⟨d.ts_code, d.trade_date, .price_logic_error, "price_logic", .error⟩]
   else []) ++
  (if (d.open_price ≠ 0 ∧ d.high ≠ 0 ∧ d.low ≠ 0) ∧
      ¬(d.low ≤ d.open_price ∧ d.open_price ≤ d.high) then
    [⟨d.ts_code, d.trade_date, .open_price_logic_error, "open", .error⟩]
   else []) ++
  (if (d.close ≠ 0 ∧ d.high ≠ 0 ∧ d.low ≠ 0) ∧
      ¬(d.low ≤ d.close ∧ d.close ≤ d.high) then
    [⟨d.ts_code, d.trade_date, .close_price_logic_error, "close", .error⟩]
   else [])

/-- Model of _detect_change_rate_anomalies: the ceiling check (tightened
for ST securities) is a warning; the recomputation check compares the
stored rate with the recomputed one within the widening tolerance and is an
error. -/
def detect_change_rate_anomalies (cfg : DetectionConfig) (d : KlineData) :
    List AnomalyRecord :=
  match d.change_rate with
  | none => []
  | some cr =>
    let mcr := if d.is_st then cfg.st_max_change_rate else cfg.max_change_rate
    (if |cr| > mcr then
      [⟨d.ts_code, d.trade_date, .change_rate_excessive, "change_rate",
        .warning⟩]
     else []) ++
    (match d.preclose with
     | none => []
     | some p =>
       if p ≠ 0 ∧ d.close ≠ 0 ∧ |p| > 1/10000000000 then
         let expected := (d.close - p) / p * 100
         let tol : ℚ := if |cr| > 10 then 5/100 else 1/100
         if |expected - cr| > tol then
           [⟨d.ts_code, d.trade_date, .change_rate_calculation_error,
             "change_rate", .error⟩]
         else []
       else [])

/-- Model of _detect_change_rate_precision_anomalies: when the stored rate
sits at the storage ceiling, the change-rate computation is replayed and a
warning carrying the clamped and raw values is emitted when it reports a
truncation. -/
def detect_change_rate_precision_anomalies (cfg : DetectionConfig)
    (d : KlineData) : List AnomalyRecord :=
  match d.change_rate with
  | none => []
  | some cr =>
    if |cr| ≥ changeRateCap then
      match (match d.preclose with
             | none => none
             | some p => calculate_change_rate_with_details d.close p) with
      | some det =>
        if det.is_truncated then
          [⟨d.ts_code, d.trade_date, .change_rate_precision_overflow,
            "change_rate", .warning⟩]
        else []
      | none => []
    else []

/-- Model of _detect_single_anomaly: an empty ts_code short-circuits to no
records (a date value of Python is always truthy, so the trade_date half of
the guard never fires); otherwise the five detectors run in order. -/
def detect_single_anomaly (cfg : DetectionConfig) (d : KlineData) :
    List AnomalyRecord :=
  if d.ts_code = "" then []
  else
    detect_price_anomalies cfg d ++
    detect_volume_anomalies cfg d ++
    detect_price_logic_anomalies cfg d ++
    detect_change_rate_anomalies cfg d ++
    detect_change_rate_precision_anomalies cfg d

/-- Model of detect_anomalies_batch: nothing when detection is disabled,
otherwise the concatenation of the per-record results (every per-record
detector of the model is total, so the per-record except block of the
source never fires). -/
def detect_anomalies_batch (cfg : DetectionConfig) (l : List KlineData) :
    List AnomalyRecord :=
  if ¬ cfg.enabled then []
  else (l.map (detect_single_anomaly cfg)).flatten

/-! ## Theorems -/

/-! ### Helper lemmas about rounding -/

theorem round_mono_q {x y : ℚ} (h : x ≤ y) : round x ≤ round y := by
  rw [round_eq, round_eq]
  exact Int.floor_le_floor (by linarith)

theorem round4_nonneg {x : ℚ} (hx : 0 ≤ x) : 0 ≤ round4 x := by
  unfold round4
  have h1 : (0 : ℤ) ≤ round (x * 10000) := by
    have h0 : round (0 : ℚ) ≤ round (x * 10000) := round_mono_q (by positivity)
    simpa using h0
  have h2 : (0 : ℚ) ≤ ((round (x * 10000) : ℤ) : ℚ) := by exact_mod_cast h1
  exact div_nonneg h2 (by norm_num)

theorem round4_nonpos {x : ℚ} (hx : x ≤ 0) : round4 x ≤ 0 := by
  unfold round4
  have h1 : round (x * 10000) ≤ (0 : ℤ) := by
    have h0 : round (x * 10000) ≤ round (0 : ℚ) :=
      round_mono_q (by nlinarith)
    simpa using h0
  have h2 : ((round (x * 10000) : ℤ) : ℚ) ≤ 0 := by exact_mod_cast h1
  exact div_nonpos_iff.mpr (Or.inr ⟨h2, by norm_num⟩)

theorem round4_intCast (n : ℤ) : round4 (n : ℚ) = n := by
  unfold round4
  have h : ((n : ℚ) * 10000) = ((n * 10000 : ℤ) : ℚ) := by push_cast; ring
  rw [h, round_intCast]
  push_cast
  field_simp

/-! ### C2: the rate limiter -/

theorem iterCalls_enabled (N : ℕ) (dur : ℚ) (k : ℕ) (hk : k < N) :
    ApiRateLimiter.iterCalls ⟨false, N, dur, true, 0⟩ k =
      ⟨false, N, dur, true, k⟩ := by
  induction k with
  | zero => rfl
  | succ n ih =>
    have hn : n < N := Nat.lt_of_succ_lt hk
    have hlt : ¬ (n + 1 ≥ N) := by omega
    simp [ApiRateLimiter.iterCalls, ih hn, ApiRateLimiter.wait_if_needed, hlt]

/-- Counterexample to claim C2 as stated: with threshold 2 and the limiter
enabled, the second call sleeps (not the third), so the calls up to the
threshold do not all run sleep-free. -/
theorem C2_rate_limiter_counterexample :
    (ApiRateLimiter.init 2 1 true).map
        (fun s => (s.sleepsOnCall 1, s.sleepsOnCall 2, s.sleepsOnCall 3)) =
      some (false, true, false) := by decide

/-- Claim C2, amended: with threshold N at least one and the limiter
enabled, the N-th call to wait_if_needed triggers the one sleep of the
first period (all earlier calls do not sleep, and the counter is reset to
zero on reaching the threshold); with threshold at most zero no call ever
sleeps. -/
theorem C2_rate_limiter_amended (N : ℕ) (dur : ℚ) (hN : 0 < N)
    (hdur : 0 ≤ dur) :
    ∃ s, ApiRateLimiter.init (N : ℤ) dur true = some s ∧
      (∀ k, 1 ≤ k → k < N → s.sleepsOnCall k = false) ∧
      s.sleepsOnCall N = true ∧
      (s.iterCalls N).call_count = 0 ∧
      ∀ cp : ℤ, cp ≤ 0 → ∃ s2, ApiRateLimiter.init cp dur true = some s2 ∧
        ∀ k, s2.sleepsOnCall k = false := by
  have hNz : ¬ ((N : ℤ) ≤ 0) := by omega
  have hinit : ApiRateLimiter.init (N : ℤ) dur true =
      some ⟨false, N, dur, true, 0⟩ := by
    unfold ApiRateLimiter.init
    rw [if_neg (not_lt.mpr hdur), if_neg hNz]
    simp
  refine ⟨_, hinit, ?_, ?_, ?_, ?_⟩
  · intro k hk1 hkN
    unfold ApiRateLimiter.sleepsOnCall
    rw [iterCalls_enabled N dur (k - 1) (by omega)]
    unfold ApiRateLimiter.wait_if_needed
    have hc : ¬ (k - 1 + 1 ≥ N) := by omega
    simp [hc]
  · unfold ApiRateLimiter.sleepsOnCall
    rw [iterCalls_enabled N dur (N - 1) (by omega)]
    unfold ApiRateLimiter.wait_if_needed
    have hc : N - 1 + 1 ≥ N := by omega
    simp [hc]
  · have hstep : ∀ s : ApiRateLimiter,
        s.iterCalls N = (s.iterCalls (N - 1)).wait_if_needed.1 := by
      intro s
      conv_lhs => rw [show N = (N - 1) + 1 by omega]
      rfl
    rw [hstep, iterCalls_enabled N dur (N - 1) (by omega)]
    unfold ApiRateLimiter.wait_if_needed
    have hc : N - 1 + 1 ≥ N := by omega
    simp [hc]
  · intro cp hcp
    refine ⟨⟨true, 0, dur, true, 0⟩, ?_, ?_⟩
    · unfold ApiRateLimiter.init
      rw [if_neg (not_lt.mpr hdur), if_pos hcp]
    · intro k
      have hiter : ∀ j, ApiRateLimiter.iterCalls ⟨true, 0, dur, true, 0⟩ j =
          ⟨true, 0, dur, true, 0⟩ := by
        intro j
        induction j with
        | zero => rfl
        | succ n ih =>
          simp [ApiRateLimiter.iterCalls, ih, ApiRateLimiter.wait_if_needed]
      unfold ApiRateLimiter.sleepsOnCall
      rw [hiter]
      unfold ApiRateLimiter.wait_if_needed
      simp

/-- Witness for C2: with threshold three, the second call does not sleep
and the third does. -/
theorem C2_rate_limiter_witness :
    ∃ s, ApiRateLimiter.init ((3 : ℕ) : ℤ) 1 true = some s ∧
      s.sleepsOnCall 2 = false ∧ s.sleepsOnCall 3 = true := by
  obtain ⟨s, h1, h2, h3, _, _⟩ :=
    C2_rate_limiter_amended 3 1 (by norm_num) (by norm_num)
  exact ⟨s, h1, h2 2 (by norm_num) (by norm_num), h3⟩

/-! ### C4 and C6: change-rate computation -/

/-- Claim C4: whenever the rounded raw change rate reaches the storage
bound 10000 in absolute value, the stored change_rate is clamped exactly to
the ceiling with the sign of the raw value, the truncation flag is set, and
the raw rounded value remains retrievable from the details. -/
theorem C4_change_rate_clamp (close preclose : ℚ)
    (h : 10000 ≤ |round4 ((close - preclose) / preclose * 100)|) :
    ∃ det, calculate_change_rate_with_details close preclose = some det ∧
      (0 < (close - preclose) / preclose * 100 →
        det.change_rate = changeRateCap) ∧
      ((close - preclose) / preclose * 100 < 0 →
        det.change_rate = -changeRateCap) ∧
      det.is_truncated = true ∧
      det.raw_change_rate = round4 ((close - preclose) / preclose * 100) := by
  have hp : preclose ≠ 0 := by
    intro h0
    rw [h0] at h
    norm_num [round4] at h
  have hc : close ≠ 0 := by
    intro h0
    rw [h0] at h
    have hraw : (0 - preclose) / preclose * 100 = -100 := by
      field_simp
    rw [hraw] at h
    have : round4 (-100 : ℚ) = ((-100 : ℤ) : ℚ) := by
      have : ((-100 : ℚ)) = (((-100 : ℤ)) : ℚ) := by norm_num
      rw [this, round4_intCast]
    rw [this] at h
    norm_num at h
  unfold calculate_change_rate_with_details
  rw [if_neg (by push_neg; exact ⟨hc, hp⟩), if_pos h]
  refine ⟨_, rfl, ?_, ?_, rfl, rfl⟩
  · intro hpos
    have hr : 0 < round4 ((close - preclose) / preclose * 100) := by
      have h0 : 0 ≤ round4 ((close - preclose) / preclose * 100) :=
        round4_nonneg (le_of_lt hpos)
      rcases le_abs.mp h with h1 | h1
      · linarith
      · linarith
    simp only [if_pos hr]
  · intro hneg
    have hr : ¬ (0 < round4 ((close - preclose) / preclose * 100)) := by
      have h0 : round4 ((close - preclose) / preclose * 100) ≤ 0 :=
        round4_nonpos (le_of_lt hneg)
      linarith
    simp only [if_neg hr]

/-- Witness for C4: preclose one ten-thousandth and close 100 drive the raw
rate to 99999900 percent, which is clamped to the ceiling with the
truncation flag set. -/
theorem C4_change_rate_clamp_witness :
    ∃ det, calculate_change_rate_with_details 100 (1/10000) = some det ∧
      det.change_rate = changeRateCap ∧ det.is_truncated = true ∧
      det.raw_change_rate = 99999900 := by
  have hraw : ((100 : ℚ) - 1/10000) / (1/10000) * 100 = ((99999900 : ℤ) : ℚ) := by
    norm_num
  have hr4 : round4 (((100 : ℚ) - 1/10000) / (1/10000) * 100) = 99999900 := by
    rw [hraw, round4_intCast]
    norm_num
  obtain ⟨det, h1, h2, _, h4, h5⟩ :=
    C4_change_rate_clamp 100 (1/10000) (by rw [hr4]; norm_num)
  refine ⟨det, h1, h2 (by norm_num), h4, ?_⟩
  rw [h5, hr4]

/-- Counterexample to claim C6 as stated: a zero close with a nonzero
preclose yields a null change rate although the claim demands the value
minus 100; and a rate beyond the storage bound is clamped, so it differs
from the plain rounded formula the claim states. -/
theorem C6_change_rate_counterexample :
    calculate_change_rate 0 10 = none ∧
    round4 ((0 - 10) / 10 * 100) = -100 ∧
    calculate_change_rate 100 (1/10000) = some changeRateCap ∧
    round4 ((100 - 1/10000) / (1/10000) * 100) = 99999900 ∧
    changeRateCap ≠ (99999900 : ℚ) := by
  have hraw1 : ((0 : ℚ) - 10) / 10 * 100 = ((-100 : ℤ) : ℚ) := by norm_num
  have hr1 : round4 (((0 : ℚ) - 10) / 10 * 100) = -100 := by
    rw [hraw1, round4_intCast]
    norm_num
  have hraw2 : ((100 : ℚ) - 1/10000) / (1/10000) * 100 = ((99999900 : ℤ) : ℚ) := by
    norm_num
  have hr2 : round4 (((100 : ℚ) - 1/10000) / (1/10000) * 100) = 99999900 := by
    rw [hraw2, round4_intCast]
    norm_num
  refine ⟨by decide, hr1, ?_, hr2, by norm_num [changeRateCap]⟩
  unfold calculate_change_rate calculate_change_rate_with_details
  rw [hr2, if_neg (by norm_num), if_pos (by norm_num)]
  simp [if_pos (show (0 : ℚ) < 99999900 by norm_num)]

/-- Claim C6, amended: when close and preclose are both nonzero and the
rounded raw rate stays below the storage bound in absolute value, the
computed change_rate equals the raw rate rounded to four decimals; the
change rate is left null exactly when close or preclose is zero. -/
theorem C6_change_rate_amended (close preclose : ℚ) (hc : close ≠ 0)
    (hp : preclose ≠ 0)
    (hb : |round4 ((close - preclose) / preclose * 100)| < 10000) :
    calculate_change_rate close preclose =
      some (round4 ((close - preclose) / preclose * 100)) := by
  unfold calculate_change_rate calculate_change_rate_with_details
  rw [if_neg (by push_neg; exact ⟨hc, hp⟩), if_neg (by linarith)]
  rfl

/-- Witness for C6: preclose 10 and close 10.50 give exactly 5.0000
percent. -/
theorem C6_change_rate_witness :
    calculate_change_rate (21/2) 10 = some 5 := by
  have hraw : ((21/2 : ℚ) - 10) / 10 * 100 = ((5 : ℤ) : ℚ) := by norm_num
  have hr : round4 (((21/2 : ℚ) - 10) / 10 * 100) = 5 := by
    rw [hraw, round4_intCast]
    norm_num
  rw [C6_change_rate_amended (21/2) 10 (by norm_num) (by norm_num)
    (by rw [hr]; norm_num), hr]

/-! ### C5: fetch fallback and classification -/

/-- Counterexample to claim C5 as stated: a remote call that raises a
network error on the primary and the fallback period is classified NoData,
not Error, because get_financial_data swallows the exception and returns
nothing. -/
theorem C5_fetch_counterexample :
    collect_fundamentals_classify (.raised "network error")
        (.raised "network error") = CollectionStatus.noData ∧
      CollectionStatus.noData ≠ CollectionStatus.error := by
  exact ⟨rfl, by decide⟩

/-- Claim C5, amended: when the primary query period yields nothing,
exactly one fallback prior period is consulted before the outcome is
classified NoData; a remote exception is caught inside the fetch layer and
yields no record, so it is classified NoData, and the orchestrator never
classifies a fetch outcome as Error. -/
theorem C5_fetch_amended (primary fallback : RemoteResp) :
    collect_fundamentals_classify primary fallback ≠ CollectionStatus.error ∧
    (collect_fundamentals_classify primary fallback = CollectionStatus.noData ↔
      get_financial_data primary = none ∧ get_financial_data fallback = none) ∧
    (∀ d, get_financial_data primary = some d →
      get_stock_fundamentals primary fallback = some d) ∧
    (get_financial_data primary = none →
      get_stock_fundamentals primary fallback = get_financial_data fallback) ∧
    (∀ m, get_financial_data (.raised m) = none) := by
  have hr : ∀ m, get_financial_data (.raised m) = none := fun _ => rfl
  rcases hgp : get_financial_data primary with _ | d1 <;>
    rcases hgf : get_financial_data fallback with _ | d2 <;>
      simp [collect_fundamentals_classify, get_stock_fundamentals, hgp, hgf, hr]

/-- Witness for C5: a primary response with one row is delivered without
consulting the fallback, and two failing responses classify as NoData. -/
theorem C5_fetch_amended_witness :
    get_stock_fundamentals (.ok [⟨some 1, some 2⟩]) (.raised "boom") =
        some ⟨some 1, some 2⟩ ∧
      collect_fundamentals_classify (.raised "x") (.protocolError "y") =
        CollectionStatus.noData := by
  constructor
  · exact (C5_fetch_amended (.ok [⟨some 1, some 2⟩])
      (.raised "boom")).2.2.1 ⟨some 1, some 2⟩ rfl
  · exact ((C5_fetch_amended (.raised "x")
      (.protocolError "y")).2.1).mpr ⟨rfl, rfl⟩

/-! ### C8 and C10: statistics aggregators -/

theorem cs_foldl_spec (rs : List CollectionResult) (s : CollectionStatistics) :
    (rs.foldl CollectionStatistics.add_result s).total = s.total + rs.length ∧
    (rs.foldl CollectionStatistics.add_result s).success_count =
      s.success_count +
        rs.countP (fun r => r.status = CollectionStatus.success) ∧
    (rs.foldl CollectionStatistics.add_result s).no_data_count =
      s.no_data_count +
        rs.countP (fun r => r.status = CollectionStatus.noData) ∧
    (rs.foldl CollectionStatistics.add_result s).error_count =
      s.error_count + rs.countP (fun r => r.status = CollectionStatus.error) := by
  induction rs generalizing s with
  | nil => simp
  | cons r rest ih =>
    obtain ⟨st, em, et⟩ := r
    obtain ⟨ih1, ih2, ih3, ih4⟩ :=
      ih (CollectionStatistics.add_result s ⟨st, em, et⟩)
    have ht : (CollectionStatistics.add_result s ⟨st, em, et⟩).total =
        s.total + 1 := by
      cases st <;> simp [CollectionStatistics.add_result]
    have hs : (CollectionStatistics.add_result s ⟨st, em, et⟩).success_count =
        s.success_count + (if st = CollectionStatus.success then 1 else 0) := by
      cases st <;> simp [CollectionStatistics.add_result]
    have hn : (CollectionStatistics.add_result s ⟨st, em, et⟩).no_data_count =
        s.no_data_count + (if st = CollectionStatus.noData then 1 else 0) := by
      cases st <;> simp [CollectionStatistics.add_result]
    have he : (CollectionStatistics.add_result s ⟨st, em, et⟩).error_count =
        s.error_count + (if st = CollectionStatus.error then 1 else 0) := by
      cases st <;> simp [CollectionStatistics.add_result]
    simp only [List.foldl_cons, List.countP_cons, ih1, ih2, ih3, ih4, ht, hs,
      hn, he]
    cases st <;> simp <;> omega

/-- Claim C8: the totals equal the per-status counts, the three rates are
the quotients of the claim (zero on an empty total), a NoData result
increments no_data_count and leaves error_count unchanged, and the success
rate sits strictly below the completion rate whenever no_data_count is
positive. -/
theorem C8_statistics_rates (rs : List CollectionResult) :
    (CollectionStatistics.ofResults rs).total = rs.length ∧
    (CollectionStatistics.ofResults rs).success_count =
      rs.countP (fun r => r.status = CollectionStatus.success) ∧
    (CollectionStatistics.ofResults rs).no_data_count =
      rs.countP (fun r => r.status = CollectionStatus.noData) ∧
    (CollectionStatistics.ofResults rs).error_count =
      rs.countP (fun r => r.status = CollectionStatus.error) ∧
    (CollectionStatistics.ofResults rs).real_success_rate =
      (if (CollectionStatistics.ofResults rs).total = 0 then 0
       else ((CollectionStatistics.ofResults rs).success_count : ℚ) /
         ((CollectionStatistics.ofResults rs).total : ℚ)) ∧
    (CollectionStatistics.ofResults rs).completion_rate =
      (if (CollectionStatistics.ofResults rs).total = 0 then 0
       else (((CollectionStatistics.ofResults rs).success_count : ℚ) +
           ((CollectionStatistics.ofResults rs).no_data_count : ℚ)) /
         ((CollectionStatistics.ofResults rs).total : ℚ)) ∧
    (CollectionStatistics.ofResults rs).error_rate =
      (if (CollectionStatistics.ofResults rs).total = 0 then 0
       else ((CollectionStatistics.ofResults rs).error_count : ℚ) /
         ((CollectionStatistics.ofResults rs).total : ℚ)) ∧
    (∀ (s : CollectionStatistics) (r : CollectionResult),
      r.status = CollectionStatus.noData →
        (s.add_result r).no_data_count = s.no_data_count + 1 ∧
        (s.add_result r).error_count = s.error_count) ∧
    (0 < (CollectionStatistics.ofResults rs).no_data_count →
      (CollectionStatistics.ofResults rs).real_success_rate <
        (CollectionStatistics.ofResults rs).completion_rate) := by
  obtain ⟨h1, h2, h3, h4⟩ := cs_foldl_spec rs CollectionStatistics.init
  have hinit : CollectionStatistics.init.total = 0 ∧
      CollectionStatistics.init.success_count = 0 ∧
      CollectionStatistics.init.no_data_count = 0 ∧
      CollectionStatistics.init.error_count = 0 := ⟨rfl, rfl, rfl, rfl⟩
  refine ⟨?_, ?_, ?_, ?_, rfl, rfl, rfl, ?_, ?_⟩
  · rw [CollectionStatistics.ofResults, h1, hinit.1]; omega
  · rw [CollectionStatistics.ofResults, h2, hinit.2.1]; omega
  · rw [CollectionStatistics.ofResults, h3, hinit.2.2.1]; omega
  · rw [CollectionStatistics.ofResults, h4, hinit.2.2.2]; omega
  · intro s r hnd
    obtain ⟨st, em, et⟩ := r
    cases st <;> simp_all [CollectionStatistics.add_result]
  · intro hnd
    have htot : 0 < (CollectionStatistics.ofResults rs).total := by
      rw [CollectionStatistics.ofResults] at *
      rw [h1, hinit.1]
      rw [h3, hinit.2.2.1] at hnd
      have := List.countP_le_length
        (p := fun r => decide (r.status = CollectionStatus.noData)) (l := rs)
      omega
    unfold CollectionStatistics.real_success_rate
      CollectionStatistics.completion_rate
    rw [if_neg (by omega), if_neg (by omega)]
    rw [div_lt_div_iff_of_pos_right (by exact_mod_cast htot)]
    have : (0 : ℚ) < ((CollectionStatistics.ofResults rs).no_data_count : ℚ) := by
      exact_mod_cast hnd
    linarith

/-- Witness for C8: one success and one no-data result give a success rate
of one half, strictly below the completion rate one. -/
theorem C8_statistics_rates_witness :
    0 < (CollectionStatistics.ofResults
        [⟨CollectionStatus.success, none, some 1⟩,
         ⟨CollectionStatus.noData, none, some 1⟩]).no_data_count ∧
      (CollectionStatistics.ofResults
        [⟨CollectionStatus.success, none, some 1⟩,
         ⟨CollectionStatus.noData, none, some 1⟩]).real_success_rate <
      (CollectionStatistics.ofResults
        [⟨CollectionStatus.success, none, some 1⟩,
         ⟨CollectionStatus.noData, none, some 1⟩]).completion_rate := by
  have h := C8_statistics_rates
    [⟨CollectionStatus.success, none, some 1⟩,
     ⟨CollectionStatus.noData, none, some 1⟩]
  exact ⟨by decide, h.2.2.2.2.2.2.2.2 (by decide)⟩

theorem ts_foldl_spec (rs : List CollectionResult)
    (s : ThreadSafeStatistics) :
    (rs.foldl ThreadSafeStatistics.add_result s).total_stocks =
      s.total_stocks + rs.length ∧
    (rs.foldl ThreadSafeStatistics.add_result s).successful +
        (rs.foldl ThreadSafeStatistics.add_result s).no_data +
        (rs.foldl ThreadSafeStatistics.add_result s).error_count =
      s.successful + s.no_data + s.error_count +
        rs.countP (fun r => truthyTime r.execution_time) := by
  induction rs generalizing s with
  | nil => simp
  | cons r rest ih =>
    obtain ⟨st, em, et⟩ := r
    obtain ⟨ih1, ih2⟩ := ih (ThreadSafeStatistics.add_result s ⟨st, em, et⟩)
    have ht : (ThreadSafeStatistics.add_result s ⟨st, em, et⟩).total_stocks =
        s.total_stocks + 1 := by
      cases htr : truthyTime et <;> cases st <;>
        simp [ThreadSafeStatistics.add_result, htr]
    have hsum : (ThreadSafeStatistics.add_result s ⟨st, em, et⟩).successful +
        (ThreadSafeStatistics.add_result s ⟨st, em, et⟩).no_data +
        (ThreadSafeStatistics.add_result s ⟨st, em, et⟩).error_count =
        s.successful + s.no_data + s.error_count +
          (if truthyTime et then 1 else 0) := by
      cases htr : truthyTime et <;> cases st <;>
        simp [ThreadSafeStatistics.add_result, htr] <;> omega
    simp only [List.foldl_cons, List.countP_cons, ih1, ih2, ht, hsum]
    cases htr : truthyTime et <;> simp [htr] <;> omega

/-- Claim C10: the three outcome counters of the thread-safe aggregator sum
exactly to the number of results carrying a truthy execution time, the
stock total counts every result, the progress tuple reports these two
numbers, and the sum can sit strictly below the total. -/
theorem C10_progress_counts (rs : List CollectionResult) :
    (ThreadSafeStatistics.ofResults rs).successful +
        (ThreadSafeStatistics.ofResults rs).no_data +
        (ThreadSafeStatistics.ofResults rs).error_count =
      rs.countP (fun r => truthyTime r.execution_time) ∧
    (ThreadSafeStatistics.ofResults rs).total_stocks = rs.length ∧
    (ThreadSafeStatistics.ofResults rs).get_progress_info.1 =
      rs.countP (fun r => truthyTime r.execution_time) ∧
    (ThreadSafeStatistics.ofResults rs).get_progress_info.2.1 = rs.length ∧
    ∃ rs2 : List CollectionResult,
      (ThreadSafeStatistics.ofResults rs2).successful +
          (ThreadSafeStatistics.ofResults rs2).no_data +
          (ThreadSafeStatistics.ofResults rs2).error_count <
        (ThreadSafeStatistics.ofResults rs2).total_stocks := by
  obtain ⟨h1, h2⟩ := ts_foldl_spec rs ThreadSafeStatistics.init
  simp only [ThreadSafeStatistics.init] at h1 h2
  simp only [ThreadSafeStatistics.ofResults, ThreadSafeStatistics.init,
    ThreadSafeStatistics.get_progress_info]
  refine ⟨by omega, by omega, by omega, by omega, ?_⟩
  exact ⟨[⟨CollectionStatus.success, none, none⟩], by decide⟩

/-! ### C1: preclose assignment of the reconciler -/

theorem insertByDate_length (r : DailyRec) (l : List DailyRec) :
    (insertByDate r l).length = l.length + 1 := by
  induction l with
  | nil => rfl
  | cons x xs ih =>
    simp only [insertByDate]
    split <;> simp [ih]

theorem sortByDate_length (l : List DailyRec) :
    (sortByDate l).length = l.length := by
  induction l with
  | nil => rfl
  | cons x xs ih =>
    simp only [sortByDate, List.foldr_cons] at *
    rw [insertByDate_length, ih]
    simp

theorem assignFrom_length (p : ℚ) (l : List DailyRec) :
    (assignFrom p l).length = l.length := by
  induction l generalizing p with
  | nil => rfl
  | cons r rest ih =>
    simp only [assignFrom, List.length_cons, ih]

theorem assignPreclose_length (l : List DailyRec) :
    (assignPreclose l).length = l.length := by
  cases l with
  | nil => rfl
  | cons r rest => simp [assignPreclose, assignFrom_length]

theorem assignFrom_getD (p : ℚ) (l : List DailyRec) (i : ℕ)
    (hi : i < l.length) :
    ((assignFrom p l).getD i dummyDailyRec).preclose =
      some (if i = 0 then p else (l.getD (i - 1) dummyDailyRec).close) ∧
    ((assignFrom p l).getD i dummyDailyRec).close =
      (l.getD i dummyDailyRec).close := by
  induction l generalizing p i with
  | nil => simp at hi
  | cons r rest ih =>
    cases i with
    | zero =>
      constructor
      · simp only [assignFrom, List.getD_cons_zero]
        split <;> rfl
      · simp only [assignFrom, List.getD_cons_zero]
        split <;> rfl
    | succ n =>
      have hn : n < rest.length := by simpa using hi
      obtain ⟨g1, g2⟩ := ih r.close n hn
      constructor
      · simp only [assignFrom, List.getD_cons_succ]
        rw [g1]
        cases n with
        | zero => simp
        | succ m => simp
      · simp only [assignFrom, List.getD_cons_succ, g2]

theorem assignPreclose_getD (l : List DailyRec) (i : ℕ) (hi : i < l.length) :
    ((assignPreclose l).getD i dummyDailyRec).preclose =
      some (if i = 0 then (l.getD 0 dummyDailyRec).open_price
            else (l.getD (i - 1) dummyDailyRec).close) ∧
    ((assignPreclose l).getD i dummyDailyRec).close =
      (l.getD i dummyDailyRec).close := by
  cases l with
  | nil => simp at hi
  | cons r rest =>
    cases i with
    | zero =>
      constructor <;> simp [assignPreclose]
    | succ n =>
      have hn : n < rest.length := by simpa using hi
      obtain ⟨g1, g2⟩ := assignFrom_getD r.close rest n hn
      constructor
      · simp only [assignPreclose, List.getD_cons_succ]
        rw [g1]
        cases n with
        | zero => simp
        | succ m => simp
      · simp only [assignPreclose, List.getD_cons_succ, g2]

/-- Counterexample to claim C1 as stated: a collection holding exactly one
bar is returned unchanged by the reconciler, so the preclose of the single
bar stays unset instead of becoming the open of that bar. -/
theorem C1_single_bar_counterexample :
    post_process_daily_data
        [⟨"sz.000001", 20240105, 10, 11, 9, 10, none, 1000, 5, none, none⟩] =
      [⟨"sz.000001", 20240105, 10, 11, 9, 10, none, 1000, 5, none, none⟩] ∧
    (⟨"sz.000001", 20240105, 10, 11, 9, 10, none, 1000, 5, none, none⟩ :
        DailyRec).preclose = none ∧
    (none : Option ℚ) ≠
      some (⟨"sz.000001", 20240105, 10, 11, 9, 10, none, 1000, 5, none, none⟩ :
        DailyRec).open_price := by
  exact ⟨rfl, rfl, by decide⟩

/-- Claim C1, amended: for a collection holding at least two bars, after
sorting ascending by trade_date the first bar receives its own open as
preclose and every later bar at position i receives the close of the bar at
position i minus one of the sorted order; a collection of at most one bar
is returned unchanged (the first-bar rule does not fire for it). -/
theorem C1_preclose_assignment (l : List DailyRec) (h2 : 2 ≤ l.length)
    (i : ℕ) (hi : i < l.length) :
    (post_process_daily_data l).length = l.length ∧
    ((post_process_daily_data l).getD i dummyDailyRec).preclose =
      some (if i = 0 then ((sortByDate l).getD 0 dummyDailyRec).open_price
            else ((sortByDate l).getD (i - 1) dummyDailyRec).close) ∧
    ((post_process_daily_data l).getD i dummyDailyRec).close =
      ((sortByDate l).getD i dummyDailyRec).close := by
  have hpp : post_process_daily_data l = assignPreclose (sortByDate l) := by
    unfold post_process_daily_data
    rw [if_neg (by omega)]
  have hlen : (sortByDate l).length = l.length := sortByDate_length l
  obtain ⟨g1, g2⟩ := assignPreclose_getD (sortByDate l) i (by omega)
  rw [hpp]
  exact ⟨by rw [assignPreclose_length, hlen], g1, g2⟩

/-- Witness for C1: two bars supplied out of order; the later-dated bar
receives the close of the earlier-dated bar as preclose. -/
theorem C1_preclose_assignment_witness :
    ((post_process_daily_data
        [⟨"sz.000001", 20240106, 10, 12, 9, 11, none, 100, 7, none, none⟩,
         ⟨"sz.000001", 20240105, 30, 31, 19, 20, none, 100, 7, none, none⟩]).getD
      1 dummyDailyRec).preclose = some 20 := by
  obtain ⟨_, hp, _⟩ := C1_preclose_assignment
    [⟨"sz.000001", 20240106, 10, 12, 9, 11, none, 100, 7, none, none⟩,
     ⟨"sz.000001", 20240105, 30, 31, 19, 20, none, 100, 7, none, none⟩]
    (by decide) 1 (by decide)
  rw [hp]
  decide

/-! ### C7: deduplication keeping the last occurrence -/

theorem dedup_filter (k : String × ℕ) (l : List DailyRec) :
    (dropDuplicatesKeepLast l).filter (fun r => dailyKey r = k) =
      ((l.filter (fun r => dailyKey r = k)).getLast?).toList := by
  induction l with
  | nil => rfl
  | cons r rest ih =>
    by_cases hk : dailyKey r = k
    · by_cases hany : rest.any (fun s => dailyKey s = dailyKey r) = true
      · have hne : rest.filter (fun r2 => dailyKey r2 = k) ≠ [] := by
          obtain ⟨s, hs, hsk⟩ := List.any_eq_true.mp hany
          intro hnil
          have := List.filter_eq_nil_iff.mp hnil s hs
          simp only [decide_eq_true_eq] at this hsk
          exact this (by rw [hsk, hk])
        rcases hfe : rest.filter (fun r2 => dailyKey r2 = k) with _ | ⟨b, bs⟩
        · exact absurd hfe hne
        · simp only [dropDuplicatesKeepLast]
          rw [if_pos hany, ih]
          simp [List.filter_cons, hk, hfe, List.getLast?_cons_cons]
      · have hfil : rest.filter (fun r2 => dailyKey r2 = k) = [] := by
          rw [List.filter_eq_nil_iff]
          intro a ha
          simp only [decide_eq_true_eq]
          intro hak
          exact hany (List.any_eq_true.mpr ⟨a, ha, by simp [hak, hk]⟩)
        simp only [dropDuplicatesKeepLast]
        rw [if_neg hany]
        simp [List.filter_cons, hk, ih, hfil]
    · by_cases hany : rest.any (fun s => dailyKey s = dailyKey r) = true
      · simp only [dropDuplicatesKeepLast]
        rw [if_pos hany, ih]
        simp [List.filter_cons, hk]
      · simp only [dropDuplicatesKeepLast]
        rw [if_neg hany]
        simp [List.filter_cons, hk, ih]

/-- Claim C7: when several records of a batch share the key of ts_code and
trade_date with differing closes, the assembled output holds exactly one
record for that key, namely the last-occurring duplicate (with its turnover
rate nulled by the assembly step). -/
theorem C7_dedup_keep_last (l : List DailyRec) (k : String × ℕ)
    (h2 : 2 ≤ (l.filter (fun r => dailyKey r = k)).length)
    (hdiff : ∃ a ∈ l.filter (fun r => dailyKey r = k),
      ∃ b ∈ l.filter (fun r => dailyKey r = k), a.close ≠ b.close) :
    ∃ last, (l.filter (fun r => dailyKey r = k)).getLast? = some last ∧
      (assemble_daily_data_with_fundamentals l).filter
          (fun r => dailyKey r = k) =
        [{ last with turnover_rate := none }] ∧
      ({ last with turnover_rate := none } : DailyRec).close = last.close := by
  have hcomp : ((fun r => decide (dailyKey r = k)) ∘
      (fun r : DailyRec => { r with turnover_rate := none })) =
      (fun r : DailyRec => decide (dailyKey r = k)) := by
    funext r
    rfl
  have hne : (l.filter (fun r => dailyKey r = k)).getLast? ≠ none := by
    intro hnone
    rw [List.getLast?_eq_none_iff] at hnone
    rw [hnone] at h2
    simp at h2
  rcases hlast : (l.filter (fun r => dailyKey r = k)).getLast? with _ | last
  · exact absurd hlast hne
  refine ⟨last, rfl, ?_, rfl⟩
  unfold assemble_daily_data_with_fundamentals
  rw [dedup_filter, List.filter_map, hcomp, List.getLast?_map, hlast]
  rfl

/-- Witness for C7: two records share the key and differ in close; the
assembled batch keeps only the second one. -/
theorem C7_dedup_keep_last_witness :
    ∃ last, (([⟨"sz.000001", 20240105, 1, 1, 1, 1, none, 1, 1, none, some 3⟩,
        ⟨"sz.000001", 20240105, 2, 2, 2, 2, none, 2, 2, none, some 4⟩] :
          List DailyRec).filter
        (fun r => dailyKey r = ("sz.000001", 20240105))).getLast? =
          some last ∧
      (assemble_daily_data_with_fundamentals
          [⟨"sz.000001", 20240105, 1, 1, 1, 1, none, 1, 1, none, some 3⟩,
           ⟨"sz.000001", 20240105, 2, 2, 2, 2, none, 2, 2, none, some 4⟩]).filter
          (fun r => dailyKey r = ("sz.000001", 20240105)) =
        [{ last with turnover_rate := none }] ∧
      ({ last with turnover_rate := none } : DailyRec).close = last.close := by
  obtain ⟨last, h1, h2, h3⟩ := C7_dedup_keep_last
    [⟨"sz.000001", 20240105, 1, 1, 1, 1, none, 1, 1, none, some 3⟩,
     ⟨"sz.000001", 20240105, 2, 2, 2, 2, none, 2, 2, none, some 4⟩]
    ("sz.000001", 20240105) (by decide)
    ⟨⟨"sz.000001", 20240105, 1, 1, 1, 1, none, 1, 1, none, some 3⟩, by decide,
     ⟨"sz.000001", 20240105, 2, 2, 2, 2, none, 2, 2, none, some 4⟩, by decide,
     by decide⟩
  exact ⟨last, h1, h2, h3⟩

/-! ### C3: decode failure behaviour -/

/-- Claim C3 fails on the code: the daily decoder carries no exception
handler, so a malformed buffer raises a struct error to the caller instead
of producing no record; the intraday decoder on the same malformed buffer
returns no record as the claim demands.  The theorem evaluates both parsers
at the failing input, a sixteen-byte buffer. -/
theorem C3_day_decoder_raises_at_failing_input :
    parse_day_file_data (List.replicate 16 0) "600000" "sh" =
      .error .structError ∧
    parse_minute_file_data (List.replicate 16 0) "600000" "sh" = none := by
  exact ⟨rfl, rfl⟩

/-! ### C9: price ordering in the anomaly gate -/

theorem mem_detect_single_of_price (cfg : DetectionConfig) (d : KlineData)
    (hts : ¬ d.ts_code = "") {r : AnomalyRecord}
    (hm : r ∈ detect_price_anomalies cfg d) :
    r ∈ detect_single_anomaly cfg d := by
  unfold detect_single_anomaly
  rw [if_neg hts]
  exact List.mem_append_left _
    (List.mem_append_left _ (List.mem_append_left _ (List.mem_append_left _ hm)))

theorem mem_detect_single_of_logic (cfg : DetectionConfig) (d : KlineData)
    (hts : ¬ d.ts_code = "") {r : AnomalyRecord}
    (hm : r ∈ detect_price_logic_anomalies cfg d) :
    r ∈ detect_single_anomaly cfg d := by
  unfold detect_single_anomaly
  rw [if_neg hts]
  exact List.mem_append_left _
    (List.mem_append_left _ (List.mem_append_right _ hm))

theorem price_invalid_mem (cfg : DetectionConfig) (d : KlineData)
    (fname : String) (p : ℚ) (hp : p ≤ 0) :
    (⟨d.ts_code, d.trade_date, .price_invalid, fname, .error⟩ :
      AnomalyRecord) ∈ priceFieldCheck cfg d fname p := by
  unfold priceFieldCheck
  rw [if_pos hp]
  exact List.mem_singleton_self _

theorem logic_highlow_mem (cfg : DetectionConfig) (d : KlineData)
    (h : d.high > 0 ∧ d.low > 0 ∧ d.high < d.low) :
    (⟨d.ts_code, d.trade_date, .price_logic_error, "price_logic", .error⟩ :
      AnomalyRecord) ∈ detect_price_logic_anomalies cfg d := by
  unfold detect_price_logic_anomalies
  refine List.mem_append_left _ (List.mem_append_left _ ?_)
  rw [if_pos h]
  exact List.mem_singleton_self _

theorem logic_open_mem (cfg : DetectionConfig) (d : KlineData)
    (h : (d.open_price ≠ 0 ∧ d.high ≠ 0 ∧ d.low ≠ 0) ∧
      ¬ (d.low ≤ d.open_price ∧ d.open_price ≤ d.high)) :
    (⟨d.ts_code, d.trade_date, .open_price_logic_error, "open", .error⟩ :
      AnomalyRecord) ∈ detect_price_logic_anomalies cfg d := by
  unfold detect_price_logic_anomalies
  refine List.mem_append_left _ (List.mem_append_right _ ?_)
  rw [if_pos h]
  exact List.mem_singleton_self _

theorem logic_close_mem (cfg : DetectionConfig) (d : KlineData)
    (h : (d.close ≠ 0 ∧ d.high ≠ 0 ∧ d.low ≠ 0) ∧
      ¬ (d.low ≤ d.close ∧ d.close ≤ d.high)) :
    (⟨d.ts_code, d.trade_date, .close_price_logic_error, "close", .error⟩ :
      AnomalyRecord) ∈ detect_price_logic_anomalies cfg d := by
  unfold detect_price_logic_anomalies
  refine List.mem_append_right _ ?_
  rw [if_pos h]
  exact List.mem_singleton_self _

/-- Counterexample to claim C9 as stated: a bar with a zero low and a close
above the high violates the close ordering invariant, yet the truthiness
guards of the source skip every ordering check, so the gate only reports
the nonpositive low and emits no record matching the violated ordering
invariant. -/
theorem C9_price_ordering_counterexample :
    ¬ ((⟨"sh.600000", 20240102, 3, 5, 0, 10, 100, 100, none, none, false⟩ :
          KlineData).low ≤
        (⟨"sh.600000", 20240102, 3, 5, 0, 10, 100, 100, none, none, false⟩ :
          KlineData).close ∧
      (⟨"sh.600000", 20240102, 3, 5, 0, 10, 100, 100, none, none, false⟩ :
          KlineData).close ≤
        (⟨"sh.600000", 20240102, 3, 5, 0, 10, 100, 100, none, none, false⟩ :
          KlineData).high) ∧
    detect_single_anomaly defaultDetectionConfig
        ⟨"sh.600000", 20240102, 3, 5, 0, 10, 100, 100, none, none, false⟩ =
      [⟨"sh.600000", 20240102, AnomalyType.price_invalid, "low",
        Severity.error⟩] := by
  refine ⟨by norm_num, ?_⟩
  norm_num [detect_single_anomaly, detect_price_anomalies,
    detect_volume_anomalies, detect_price_logic_anomalies,
    detect_change_rate_anomalies, detect_change_rate_precision_anomalies,
    priceFieldCheck, defaultDetectionConfig]
  decide

/-- Claim C9, amended: for a bar with a nonempty code, a violated price
ordering invariant always puts an Error-severity record in the gate output;
when the four prices are positive (so the truthiness guards of the source
pass), the record matches the violated ordering invariant itself. -/
theorem C9_price_ordering (cfg : DetectionConfig) (d : KlineData)
    (hts : d.ts_code ≠ "") :
    (¬ (d.low ≤ d.high ∧ (d.low ≤ d.open_price ∧ d.open_price ≤ d.high) ∧
        (d.low ≤ d.close ∧ d.close ≤ d.high)) →
      ∃ r ∈ detect_single_anomaly cfg d, r.severity = Severity.error) ∧
    (0 < d.open_price → 0 < d.high → 0 < d.low → 0 < d.close →
      ((d.high < d.low →
        ∃ r ∈ detect_single_anomaly cfg d,
          r.anomaly_type = AnomalyType.price_logic_error ∧
          r.severity = Severity.error) ∧
       (¬ (d.low ≤ d.open_price ∧ d.open_price ≤ d.high) →
        ∃ r ∈ detect_single_anomaly cfg d,
          r.anomaly_type = AnomalyType.open_price_logic_error ∧
          r.severity = Severity.error) ∧
       (¬ (d.low ≤ d.close ∧ d.close ≤ d.high) →
        ∃ r ∈ detect_single_anomaly cfg d,
          r.anomaly_type = AnomalyType.close_price_logic_error ∧
          r.severity = Severity.error))) := by
  constructor
  · intro hviol
    rcases le_or_lt d.open_price 0 with h | hop
    · exact ⟨_, mem_detect_single_of_price cfg d hts
        (List.mem_append_left _ (List.mem_append_left _
          (List.mem_append_left _ (price_invalid_mem cfg d "open" _ h)))), rfl⟩
    rcases le_or_lt d.high 0 with h | hh
    · exact ⟨_, mem_detect_single_of_price cfg d hts
        (List.mem_append_left _ (List.mem_append_left _
          (List.mem_append_right _ (price_invalid_mem cfg d "high" _ h)))),
        rfl⟩
    rcases le_or_lt d.low 0 with h | hl
    · exact ⟨_, mem_detect_single_of_price cfg d hts
        (List.mem_append_left _
          (List.mem_append_right _ (price_invalid_mem cfg d "low" _ h))), rfl⟩
    rcases le_or_lt d.close 0 with h | hc
    · exact ⟨_, mem_detect_single_of_price cfg d hts
        (List.mem_append_right _ (price_invalid_mem cfg d "close" _ h)), rfl⟩
    by_cases h1 : d.high < d.low
    · exact ⟨_, mem_detect_single_of_logic cfg d hts
        (logic_highlow_mem cfg d ⟨hh, hl, h1⟩), rfl⟩
    by_cases h2 : d.low ≤ d.open_price ∧ d.open_price ≤ d.high
    · by_cases h3 : d.low ≤ d.close ∧ d.close ≤ d.high
      · exact absurd ⟨by linarith [not_lt.mp h1], h2, h3⟩ hviol
      · exact ⟨_, mem_detect_single_of_logic cfg d hts
          (logic_close_mem cfg d ⟨⟨ne_of_gt hc, ne_of_gt hh, ne_of_gt hl⟩, h3⟩),
          rfl⟩
    · exact ⟨_, mem_detect_single_of_logic cfg d hts
        (logic_open_mem cfg d ⟨⟨ne_of_gt hop, ne_of_gt hh, ne_of_gt hl⟩, h2⟩),
        rfl⟩
  · intro hop hh hl hc
    refine ⟨?_, ?_, ?_⟩
    · intro h1
      exact ⟨_, mem_detect_single_of_logic cfg d hts
        (logic_highlow_mem cfg d ⟨hh, hl, h1⟩), rfl, rfl⟩
    · intro h2
      exact ⟨_, mem_detect_single_of_logic cfg d hts
        (logic_open_mem cfg d ⟨⟨ne_of_gt hop, ne_of_gt hh, ne_of_gt hl⟩, h2⟩),
        rfl, rfl⟩
    · intro h3
      exact ⟨_, mem_detect_single_of_logic cfg d hts
        (logic_close_mem cfg d ⟨⟨ne_of_gt hc, ne_of_gt hh, ne_of_gt hl⟩, h3⟩),
        rfl, rfl⟩

/-- Witness for C9: a bar with positive prices whose high sits below its
low receives the matching Error record. -/
theorem C9_price_ordering_witness :
    ∃ r ∈ detect_single_anomaly defaultDetectionConfig
        ⟨"sh.600000", 20240102, 5, 4, 6, 5, 100, 100, none, none, false⟩,
      r.anomaly_type = AnomalyType.price_logic_error ∧
      r.severity = Severity.error := by
  have h := C9_price_ordering defaultDetectionConfig
    ⟨"sh.600000", 20240102, 5, 4, 6, 5, 100, 100, none, none, false⟩
    (by decide)
  exact (h.2 (by norm_num) (by norm_num) (by norm_num) (by norm_num)).1
    (by norm_num)

end StockYuzh
